import Mathlib

/-!
Verification of the SuperDeploy demo deployment orchestrator
(`src/deploy.d/demo-deploy.py`).

The script is a linear, flag-gated sequence of deployment stages, each of
which shells out to external tools through one wrapper (`run_command`) and
returns a success flag.  We embed the orchestrator shallowly:

* `World` models the environment: an oracle `exec` giving, for each command
  line and working directory, either a process result (return code, stdout,
  stderr) or a raised Python error (`KeyboardInterrupt`, which the wrapper
  does not catch because it is not an `Exception`, or an ordinary
  exception); an oracle `write` telling whether a file write raises; and
  the file-existence facts the script tests (`requirements.txt`, `venv`,
  test directories and files, `Dockerfile`, `terraform/`).
* `StageM` is the effect monad of one stage body: a state-passing function
  on a `Trace` (commands issued, log lines, stages entered, summary shown)
  that can stop with a raised `PyErr`.  The trace is preserved on a raise,
  matching the fact that commands already executed stay executed.
* Each stage method of `PythonDeployer` is translated line by line
  (`check_prerequisites`, `setup_python_environment`, `run_tests`,
  `deploy_infrastructure`, `build_docker_image`, `push_to_registry`,
  `deploy_application`, `health_check`).
* `runBody` is `PythonDeployer.run`'s try-block: each stage is wrapped in
  `if not stage(): sys.exit(1)` (the `gateRes`/`runStep` combinators) and
  sequenced with the same flag tests as the source.  `deployerRun` adds the
  `except KeyboardInterrupt` / `except Exception` handlers, and `main` adds
  the argparse validation of the mutually exclusive flags.  Note that
  `argparse.ArgumentParser.error` terminates the process with exit status 2.
-/

namespace SuperDeploy

/-- Log levels of `DeploymentLogger.log`. -/
inductive Level where
  | info
  | success
  | warning
  | error
deriving DecidableEq, Repr

/-- Python control-flow errors that can escape a statement: a
`KeyboardInterrupt` (not an `Exception` subclass, so `except Exception`
clauses do not catch it) or an ordinary exception carrying a message. -/
inductive PyErr where
  | interrupt
  | exc (msg : String)
deriving DecidableEq, Repr

/-- Result of attempting to run one external command: either the process
completes with a return code and captured output, or the attempt raises. -/
inductive ExecOutcome where
  | ok (code : Int) (out : String) (err : String)
  | raise (e : PyErr)
deriving DecidableEq, Repr

/-- One invocation of the command-execution wrapper: the argument list and
the working directory passed to `subprocess.run`. -/
structure Cmd where
  args : List String
  cwd : Option String
deriving DecidableEq, Repr

/-- The deployment stages of the script, named after the step titles the
source passes to the logger, plus the final summary report. -/
inductive Stage where
  | prereq
  | setup
  | tests
  | infra
  | build
  | push
  | deploy
  | health
  | summary
deriving DecidableEq, Repr

/-- Position of a stage in the fixed order of section 4.1 of the spec. -/
def stageIdx : Stage → Nat
  | .prereq => 0
  | .setup => 1
  | .tests => 2
  | .infra => 3
  | .build => 4
  | .push => 5
  | .deploy => 6
  | .health => 7
  | .summary => 8

/-- The command-line configuration built by `argparse` in `main`. -/
structure Config where
  project_name : String
  environment : String
  aws_region : String
  image_tag : String
  auto_approve : Bool
  plan_only : Bool
  infrastructure_only : Bool
  application_only : Bool
  verbose : Bool
deriving DecidableEq, Repr

/-- The environment a run executes in: oracles for subprocess execution and
file writes, and the file-existence facts the script branches on. -/
structure World where
  exec : List String → Option String → ExecOutcome
  write : String → Option PyErr
  requirements_txt : Bool
  venv : Bool
  dir_tests : Bool
  dir_test : Bool
  test_files : Bool
  dockerfile : Bool
  terraform_dir : Bool
  project_dir : String

/-- Observable history of a run: stages entered, commands issued, log
lines emitted, and whether the summary was printed. -/
structure Trace where
  stages : List Stage
  cmds : List Cmd
  logs : List (Level × String)
  summaryShown : Bool
deriving DecidableEq, Repr

/-- The empty trace at process start. -/
def Trace.empty : Trace := ⟨[], [], [], false⟩

/-- Append one log line to a trace. -/
def Trace.addLog (t : Trace) (lv : Level) (m : String) : Trace :=
  ⟨t.stages, t.cmds, t.logs ++ [(lv, m)], t.summaryShown⟩

/-- Record one command invocation in a trace. -/
def Trace.addCmd (t : Trace) (c : Cmd) : Trace :=
  ⟨t.stages, t.cmds ++ [c], t.logs, t.summaryShown⟩

/-- Mark the summary as printed. -/
def Trace.showSummary (t : Trace) : Trace :=
  ⟨t.stages, t.cmds, t.logs, true⟩

/-- Effect monad of one stage body: state passing on the trace, with a
possible raised `PyErr`.  The trace survives a raise. -/
def StageM (α : Type) : Type := Trace → Except PyErr α × Trace

/-- Return for `StageM`. -/
def sPure {α : Type} (a : α) : StageM α := fun t => (.ok a, t)

/-- Sequencing for `StageM`: a raise short-circuits but keeps the trace. -/
def sBind {α β : Type} (m : StageM α) (f : α → StageM β) : StageM β := fun t =>
  match m t with
  | (.ok a, t1) => f a t1
  | (.error e, t1) => (.error e, t1)

/-- Raise a Python error from a stage body. -/
def sThrow {α : Type} (e : PyErr) : StageM α := fun t => (.error e, t)

/-- One `self.logger.log(level, message)` call. -/
def logM (lv : Level) (m : String) : StageM Unit := fun t =>
  (.ok (), t.addLog lv m)

/-- One `open(path, "w")` / `write` side effect, which the script performs
without a surrounding try block, so a raise propagates to the top. -/
def writeFile (w : World) (f : String) : StageM Unit := fun t =>
  match w.write f with
  | none => (.ok (), t)
  | some e => (.error e, t)

/-- `PythonDeployer.run_command` (source lines 93-105): run the command,
returning `(returncode, stdout, stderr)`; `except Exception` converts an
ordinary raise into `(1, "", str(e))` after logging an error, while a
`KeyboardInterrupt` is not an `Exception` and propagates. -/
def run_command (w : World) (cmd : List String) (cwd : Option String)
    (capture : Bool) : StageM (Int × String × String) := fun t =>
  let t1 := t.addCmd ⟨cmd, cwd⟩
  match w.exec cmd cwd with
  | .ok c o e => (.ok (if capture then (c, o, e) else (c, "", "")), t1)
  | .raise .interrupt => (.error .interrupt, t1)
  | .raise (.exc m) =>
      (.ok (1, "", m),
        t1.addLog .error
          ("Failed to run command " ++ String.intercalate " " cmd ++ ": " ++ m))

/-- Path of the virtualenv pip executable used by the script. -/
def pip_cmd (w : World) : String := w.project_dir ++ "/venv/bin/pip"

/-- Path of the virtualenv python executable used by the script. -/
def python_cmd (w : World) : String := w.project_dir ++ "/venv/bin/python"

/-- `PythonDeployer.create_basic_requirements` (lines 144-160): write a
default `requirements.txt` and log. -/
def create_basic_requirements (w : World) : StageM Unit :=
  sBind (writeFile w "requirements.txt") fun _ =>
  logM .info "Created basic requirements.txt"

/-- The `for tool in required_tools` loop of `check_prerequisites`
(lines 114-117): run `which` for every tool and collect the missing ones. -/
def whichMissing (w : World) : List String → StageM (List String)
  | [] => sPure []
  | tool :: rest =>
      sBind (run_command w ["which", tool] none true) fun r =>
      sBind (whichMissing w rest) fun ms =>
      sPure (if r.1 ≠ 0 then tool :: ms else ms)

/-- `PythonDeployer.check_prerequisites` (lines 107-142). -/
def check_prerequisites (w : World) : StageM Bool :=
  sBind (logM .info "Checking prerequisites...") fun _ =>
  sBind (whichMissing w ["docker", "aws", "python3", "pip"]) fun missing =>
  if missing ≠ [] then
    sBind (logM .error
      ("Missing required tools: " ++ String.intercalate ", " missing)) fun _ =>
    sPure false
  else
    sBind (run_command w ["aws", "sts", "get-caller-identity"] none true) fun ra =>
    if ra.1 ≠ 0 then
      sBind (logM .error "AWS credentials not configured") fun _ =>
      sPure false
    else
      sBind (run_command w ["docker", "info"] none true) fun rd =>
      if rd.1 ≠ 0 then
        sBind (logM .error "Docker is not running") fun _ =>
        sPure false
      else
        sBind (if w.requirements_txt then sPure () else
          sBind (logM .warning "requirements.txt not found - creating basic one") fun _ =>
          create_basic_requirements w) fun _ =>
        sBind (logM .success "All prerequisites met") fun _ =>
        sPure true

/-- `PythonDeployer.setup_python_environment` (lines 162-191). -/
def setup_python_environment (w : World) : StageM Bool :=
  sBind (logM .info "Setting up Python environment...") fun _ =>
  sBind (if w.venv then sPure true else
      sBind (logM .info "Creating virtual environment...") fun _ =>
      sBind (run_command w ["python3", "-m", "venv", "venv"] none false) fun r =>
      if r.1 ≠ 0 then
        sBind (logM .error "Failed to create virtual environment") fun _ =>
        sPure false
      else sPure true) fun venvOk =>
  if venvOk then
    sBind (logM .info "Installing Python dependencies...") fun _ =>
    sBind (run_command w [pip_cmd w, "install", "--upgrade", "pip"] none false) fun r1 =>
    if r1.1 ≠ 0 then
      sBind (logM .error "Failed to upgrade pip") fun _ =>
      sPure false
    else
      sBind (run_command w [pip_cmd w, "install", "-r", "requirements.txt"] none false) fun r2 =>
      if r2.1 ≠ 0 then
        sBind (logM .error "Failed to install requirements") fun _ =>
        sPure false
      else
        sBind (logM .success "Python environment configured") fun _ =>
        sPure true
  else sPure false

/-- `PythonDeployer.run_tests` (lines 193-225): skip with a warning when no
test directory or test file is discoverable; otherwise run pytest when its
version probe succeeds, else unittest discovery. -/
def run_tests (w : World) : StageM Bool :=
  sBind (logM .info "Running tests...") fun _ =>
  if ¬ ((w.dir_tests || w.dir_test) || w.test_files) then
    sBind (logM .warning "No tests found - skipping test execution") fun _ =>
    sPure true
  else
    sBind (run_command w [python_cmd w, "-m", "pytest", "--version"] none true) fun rp =>
    sBind (if rp.1 == 0 then
        sBind (logM .info "Running tests with pytest...") fun _ =>
        run_command w [python_cmd w, "-m", "pytest", "-v"] none false
      else
        sBind (logM .info "Running tests with unittest...") fun _ =>
        run_command w [python_cmd w, "-m", "unittest", "discover", "-v"] none false) fun rt =>
    if rt.1 ≠ 0 then
      sBind (logM .error "Tests failed") fun _ =>
      sPure false
    else
      sBind (logM .success "All tests passed") fun _ =>
      sPure true

/-- `PythonDeployer.create_demo_dockerfile` (lines 248-290): write a
default `Dockerfile` (an opaque template string) and log. -/
def create_demo_dockerfile (w : World) : StageM Unit :=
  sBind (writeFile w "Dockerfile") fun _ =>
  logM .info "Created demo Dockerfile"

/-- `PythonDeployer.build_docker_image` (lines 227-246). -/
def build_docker_image (cfg : Config) (w : World) : StageM Bool :=
  sBind (logM .info "Building Docker image...") fun _ =>
  sBind (if w.dockerfile then sPure () else
      sBind (logM .info "Creating demo Dockerfile...") fun _ =>
      create_demo_dockerfile w) fun _ =>
  sBind (logM .info ("Building image: " ++ cfg.project_name ++ ":" ++ cfg.image_tag)) fun _ =>
  sBind (run_command w
      ["docker", "build", "-t", cfg.project_name ++ ":" ++ cfg.image_tag, "."] none false) fun r =>
  if r.1 ≠ 0 then
    sBind (logM .error "Docker build failed") fun _ =>
    sPure false
  else
    sBind (logM .success
      ("Docker image built: " ++ cfg.project_name ++ ":" ++ cfg.image_tag)) fun _ =>
    sPure true

/-- The terraform working directory `self.project_dir / "terraform"`. -/
def tfDir (w : World) : String := w.project_dir ++ "/terraform"

/-- `PythonDeployer.create_demo_terraform` (lines 323-422): make the
directory and write `main.tf` and `variables.tf` (opaque templates). -/
def create_demo_terraform (w : World) : StageM Unit :=
  sBind (writeFile w "terraform") fun _ =>
  sBind (writeFile w "terraform/main.tf") fun _ =>
  sBind (writeFile w "terraform/variables.tf") fun _ =>
  logM .info "Created demo Terraform configuration"

/-- `PythonDeployer.deploy_infrastructure` (lines 292-321): terraform init,
then `terraform plan` when `plan_only` is set, else
`terraform apply -auto-approve`. -/
def deploy_infrastructure (cfg : Config) (w : World) : StageM Bool :=
  sBind (logM .info "Deploying infrastructure...") fun _ =>
  sBind (if w.terraform_dir then sPure () else
      sBind (logM .warning "No terraform directory found - creating demo configuration") fun _ =>
      create_demo_terraform w) fun _ =>
  sBind (logM .info "Initializing Terraform...") fun _ =>
  sBind (run_command w ["terraform", "init"] (some (tfDir w)) false) fun ri =>
  if ri.1 ≠ 0 then
    sBind (logM .error "Terraform init failed") fun _ =>
    sPure false
  else
    sBind (if cfg.plan_only then
        sBind (logM .info "Running Terraform plan...") fun _ =>
        run_command w ["terraform", "plan"] (some (tfDir w)) false
      else
        sBind (logM .info "Applying Terraform configuration...") fun _ =>
        run_command w ["terraform", "apply", "-auto-approve"] (some (tfDir w)) false) fun ra =>
    if ra.1 ≠ 0 then
      sBind (logM .error "Terraform deployment failed") fun _ =>
      sPure false
    else
      sBind (logM .success "Infrastructure deployment completed") fun _ =>
      sPure true

/-- The ECR repository name derived in `PythonDeployer.__init__` (line 89). -/
def ecr_repository (cfg : Config) : String :=
  "your-account.dkr.ecr." ++ cfg.aws_region ++ ".amazonaws.com/" ++
    cfg.project_name ++ "-" ++ cfg.environment

/-- The ECS service name derived in `PythonDeployer.__init__` (line 91). -/
def ecs_service (cfg : Config) : String :=
  cfg.project_name ++ "-service-" ++ cfg.environment

/-- `PythonDeployer.push_to_registry` (lines 424-455). -/
def push_to_registry (cfg : Config) (w : World) : StageM Bool :=
  sBind (logM .info "Pushing to ECR...") fun _ =>
  sBind (logM .info "Authenticating with ECR...") fun _ =>
  sBind (run_command w
      ["aws", "ecr", "get-login-password", "--region", cfg.aws_region] none true) fun rl =>
  if rl.1 ≠ 0 then
    sBind (logM .error "ECR authentication failed") fun _ =>
    sPure false
  else
    sBind (logM .info
      ("Tagging image: " ++ cfg.project_name ++ ":" ++ cfg.image_tag ++ " -> " ++
        ecr_repository cfg ++ ":" ++ cfg.image_tag)) fun _ =>
    sBind (run_command w
      ["docker", "tag", cfg.project_name ++ ":" ++ cfg.image_tag,
        ecr_repository cfg ++ ":" ++ cfg.image_tag] none false) fun rt =>
    if rt.1 ≠ 0 then
      sBind (logM .error "Docker tag failed") fun _ =>
      sPure false
    else
      sBind (logM .info "Pushing image to ECR...") fun _ =>
      sBind (run_command w
        ["docker", "push", ecr_repository cfg ++ ":" ++ cfg.image_tag] none false) fun rp =>
      if rp.1 ≠ 0 then
        sBind (logM .error "Docker push failed") fun _ =>
        sPure false
      else
        sBind (logM .success "Image pushed to ECR successfully") fun _ =>
        sPure true

/-- `PythonDeployer.deploy_application` (lines 457-470): log only, no
collaborator call, unconditional success. -/
def deploy_application (cfg : Config) : StageM Bool :=
  sBind (logM .info "Deploying application...") fun _ =>
  sBind (logM .info "Updating ECS service...") fun _ =>
  sBind (logM .info ("Would update ECS service: " ++ ecs_service cfg)) fun _ =>
  sBind (logM .info ("New image: " ++ ecr_repository cfg ++ ":" ++ cfg.image_tag)) fun _ =>
  sBind (logM .success "Application deployment completed") fun _ =>
  sPure true

/-- `PythonDeployer.health_check` (lines 472-482): log, sleep a fixed
delay, log, unconditional success; no collaborator call. -/
def health_check : StageM Bool :=
  sBind (logM .info "Performing health check...") fun _ =>
  sBind (logM .info "Checking application health...") fun _ =>
  sBind (logM .success "Application is healthy") fun _ =>
  sPure true

/-- Errors that can escape the body of `PythonDeployer.run`: a `sys.exit`
(a `SystemExit`, which neither `except` clause catches) or a raised
`PyErr` propagating out of a stage. -/
inductive BodyErr where
  | sysExit (n : Nat)
  | raised (e : PyErr)
deriving DecidableEq, Repr

/-- Dispatch from a stage name to the stage method the orchestrator calls
for it.  `Stage.summary` is handled separately by `runBody`. -/
def stageFn (cfg : Config) (w : World) : Stage → StageM Bool
  | .prereq => check_prerequisites w
  | .setup => setup_python_environment w
  | .tests => run_tests w
  | .infra => deploy_infrastructure cfg w
  | .build => build_docker_image cfg w
  | .push => push_to_registry cfg w
  | .deploy => deploy_application cfg
  | .health => health_check
  | .summary => sPure true

/-- Result and trace delta of running one stage method from a fresh trace. -/
def stageOut (cfg : Config) (w : World) (s : Stage) : Except PyErr Bool × Trace :=
  stageFn cfg w s Trace.empty

/-- The success/failure/raise outcome of one stage method. -/
def stageRes (cfg : Config) (w : World) (s : Stage) : Except PyErr Bool :=
  (stageOut cfg w s).1

/-- The `if not stage(): sys.exit(1)` pattern of `PythonDeployer.run`
applied to a stage outcome: success continues, a `False` return becomes
`sys.exit(1)`, and a raise propagates. -/
def gateRes : Except PyErr Bool → Except BodyErr Unit
  | .ok true => .ok ()
  | .ok false => .error (.sysExit 1)
  | .error e => .error (.raised e)

/-- Invoke one stage from trace `t`: record the stage entry (the step
header the logger prints), append the stage's commands and log lines, and
gate on its outcome. -/
def runStep (cfg : Config) (w : World) (s : Stage) (t : Trace) :
    Except BodyErr Unit × Trace :=
  (gateRes (stageOut cfg w s).1,
    ⟨t.stages ++ [s], t.cmds ++ (stageOut cfg w s).2.cmds,
      t.logs ++ (stageOut cfg w s).2.logs, t.summaryShown⟩)

/-- Sequencing at the orchestrator level: stop on the first error, keep
the trace. -/
def andThen (x : Except BodyErr Unit × Trace)
    (f : Trace → Except BodyErr Unit × Trace) : Except BodyErr Unit × Trace :=
  match x with
  | (.ok _, t) => f t
  | (.error e, t) => (.error e, t)

/-- The try-block body of `PythonDeployer.run` (lines 509-539): the
prerequisite check, then setup/tests/infrastructure unless
`application_only`, then the build and (unless `plan_only`) the
push/deploy/health stages unless `infrastructure_only`, then the summary. -/
def runBody (cfg : Config) (w : World) (t : Trace) : Except BodyErr Unit × Trace :=
  andThen (runStep cfg w .prereq t) fun t1 =>
  andThen (if cfg.application_only then (.ok (), t1) else
    andThen (runStep cfg w .setup t1) fun t2 =>
    andThen (runStep cfg w .tests t2) fun t3 =>
    runStep cfg w .infra t3) fun t4 =>
  andThen (if cfg.infrastructure_only then (.ok (), t4) else
    andThen (runStep cfg w .build t4) fun t5 =>
    if cfg.plan_only then (.ok (), t5) else
    andThen (runStep cfg w .push t5) fun t6 =>
    andThen (runStep cfg w .deploy t6) fun t7 =>
    runStep cfg w .health t7) fun t8 =>
  (.ok (), t8.showSummary)

/-- Run a list of gated stages in order, then print the summary.  This is
the normal form of `runBody` used for inductive proofs. -/
def chain (cfg : Config) (w : World) : List Stage → Trace → Except BodyErr Unit × Trace
  | [] => fun t => (.ok (), t.showSummary)
  | s :: ss => fun t => andThen (runStep cfg w s t) (chain cfg w ss)

/-- The stages `runBody` attempts for a given flag set, in order. -/
def stageList (cfg : Config) : List Stage :=
  [Stage.prereq] ++
  (if cfg.application_only then [] else [Stage.setup, Stage.tests, Stage.infra]) ++
  (if cfg.infrastructure_only then [] else
    [Stage.build] ++
      (if cfg.plan_only then [] else [Stage.push, Stage.deploy, Stage.health]))

/-- `PythonDeployer.run` (lines 507-546): run the body; `sys.exit(n)`
escapes as exit status `n`; a `KeyboardInterrupt` is caught, a warning is
logged and the process exits 1; any other exception is caught, an error is
logged and the process exits 1. -/
def deployerRun (cfg : Config) (w : World) : Except Nat Unit × Trace :=
  match runBody cfg w Trace.empty with
  | (.ok _, t) => (.ok (), t)
  | (.error (.sysExit n), t) => (.error n, t)
  | (.error (.raised .interrupt), t) =>
      (.error 1, t.addLog .warning "Deployment interrupted by user")
  | (.error (.raised (.exc m)), t) =>
      (.error 1, t.addLog .error ("Unexpected error: " ++ m))

/-- The `main` entry point (lines 548-591): `argparse` validation rejects
`--infrastructure-only` together with `--application-only` through
`parser.error`, which terminates the process with exit status 2 before the
deployer is even constructed; otherwise the deployer runs and the process
exits 0 on normal return or with the escaping `SystemExit` status. -/
def main (cfg : Config) (w : World) : Nat × Trace :=
  if cfg.infrastructure_only && cfg.application_only then (2, Trace.empty)
  else
    match deployerRun cfg w with
    | (.ok _, t) => (0, t)
    | (.error n, t) => (n, t)

/-- The stages a full run invokes, in order. -/
def invoked (cfg : Config) (w : World) : List Stage :=
  (main cfg w).2.stages

/-- The stages a full run invokes including the summary report, which the
source prints without a step header. -/
def invokedAll (cfg : Config) (w : World) : List Stage :=
  invoked cfg w ++ (if (main cfg w).2.summaryShown then [Stage.summary] else [])

/-- The fixed stage order of spec section 4.1, without the summary. -/
def stageOrder8 : List Stage :=
  [Stage.prereq, Stage.setup, Stage.tests, Stage.infra, Stage.build,
    Stage.push, Stage.deploy, Stage.health]

/-- The fixed stage order of spec section 4.1, summary included. -/
def fullOrder : List Stage := stageOrder8 ++ [Stage.summary]

/-- Decidable equality of `Except` values, for evaluating stage outcomes
on concrete inputs. -/
instance {ε α : Type} [DecidableEq ε] [DecidableEq α] :
    DecidableEq (Except ε α) := fun x y =>
  match x, y with
  | .ok a, .ok b =>
      if h : a = b then isTrue (by rw [h])
      else isFalse (fun hc => h (Except.ok.inj hc))
  | .error e, .error f =>
      if h : e = f then isTrue (by rw [h])
      else isFalse (fun hc => h (Except.error.inj hc))
  | .ok _, .error _ => isFalse (fun hc => Except.noConfusion hc)
  | .error _, .ok _ => isFalse (fun hc => Except.noConfusion hc)

/-! ## Concrete configurations and worlds used as test inputs -/

/-- The default configuration `--project-name demo` with no mode flags. -/
def cfgDefault : Config :=
  ⟨"demo", "prod", "us-east-1", "latest", false, false, false, false, false⟩

/-- Configuration with `--plan-only`. -/
def cfgPlan : Config :=
  ⟨"demo", "prod", "us-east-1", "latest", false, true, false, false, false⟩

/-- Configuration with `--infrastructure-only`. -/
def cfgInfra : Config :=
  ⟨"demo", "prod", "us-east-1", "latest", false, false, true, false, false⟩

/-- Configuration with both `--infrastructure-only` and `--application-only`. -/
def cfgBoth : Config :=
  ⟨"demo", "prod", "us-east-1", "latest", false, false, true, true, false⟩

/-- A world where every command succeeds quietly and every write succeeds. -/
def wGood : World :=
  ⟨fun _ _ => .ok 0 "" "", fun _ => none, true, true, false, false, false, true, true, ""⟩

/-- A world where `which docker` fails, so the prerequisite check fails. -/
def wBadDocker : World :=
  ⟨fun c _ => if c = ["which", "docker"] then .ok 1 "" "" else .ok 0 "" "",
    fun _ => none, true, true, false, false, false, true, true, ""⟩

/-- A world with a discoverable test suite whose pytest run fails. -/
def wFailTests : World :=
  ⟨fun c _ => if c = ["/venv/bin/python", "-m", "pytest", "-v"] then .ok 1 "" ""
      else .ok 0 "" "",
    fun _ => none, true, true, true, false, false, true, true, ""⟩

/-- A world where every subprocess launch is hit by a `KeyboardInterrupt`. -/
def wInterrupted : World :=
  ⟨fun _ _ => .raise .interrupt, fun _ => none,
    true, true, false, false, false, true, true, ""⟩

/-- A world where every subprocess launch raises an ordinary exception. -/
def wExc : World :=
  ⟨fun _ _ => .raise (.exc "boom"), fun _ => none,
    true, true, false, false, false, true, true, ""⟩

/-! ## Basic trace and combinator lemmas -/

/-- Adding a log line leaves the stage list unchanged. -/
theorem addLog_stages (t : Trace) (lv : Level) (m : String) :
    (t.addLog lv m).stages = t.stages := rfl

/-- Adding a log line leaves the summary flag unchanged. -/
theorem addLog_shown (t : Trace) (lv : Level) (m : String) :
    (t.addLog lv m).summaryShown = t.summaryShown := rfl

/-- The first component of `runStep` is the gated stage outcome. -/
theorem runStep_fst (cfg : Config) (w : World) (s : Stage) (t : Trace) :
    (runStep cfg w s t).1 = gateRes (stageRes cfg w s) := rfl

/-- `runStep` appends exactly its stage name to the trace. -/
theorem runStep_stages (cfg : Config) (w : World) (s : Stage) (t : Trace) :
    (runStep cfg w s t).2.stages = t.stages ++ [s] := rfl

/-- `runStep` never touches the summary flag. -/
theorem runStep_shown (cfg : Config) (w : World) (s : Stage) (t : Trace) :
    (runStep cfg w s t).2.summaryShown = t.summaryShown := rfl

/-- Sequencing after an immediate success just continues. -/
theorem andThen_ok (t : Trace) (f : Trace → Except BodyErr Unit × Trace) :
    andThen (.ok (), t) f = f t := rfl

/-- Orchestrator sequencing is associative. -/
theorem andThen_assoc (x : Except BodyErr Unit × Trace)
    (f g : Trace → Except BodyErr Unit × Trace) :
    andThen (andThen x f) g = andThen x (fun t => andThen (f t) g) := by
  rcases x with ⟨r, t⟩
  cases r <;> rfl

/-! ## The nested body equals the stage-list chain -/

/-- `runBody` is the chain of the flag-selected stage list: the nested
conditionals of the source only decide membership, giving a right-nested
sequence of gated stages. -/
theorem runBody_eq_chain (cfg : Config) (w : World) (t : Trace) :
    runBody cfg w t = chain cfg w (stageList cfg) t := by
  rcases h1 : cfg.application_only <;> rcases h2 : cfg.infrastructure_only <;>
    rcases h3 : cfg.plan_only <;>
      simp [runBody, chain, stageList, h1, h2, h3, andThen_assoc, andThen_ok]

/-- Unfold one successful chain step. -/
theorem chain_cons_ok (cfg : Config) (w : World) (s : Stage) (ss : List Stage)
    (t : Trace) (h : gateRes (stageRes cfg w s) = .ok ()) :
    chain cfg w (s :: ss) t = chain cfg w ss (runStep cfg w s t).2 := by
  have h1 : (runStep cfg w s t).1 = Except.ok () := h
  show andThen (runStep cfg w s t) (chain cfg w ss) = _
  rw [show runStep cfg w s t = (Except.ok (), (runStep cfg w s t).2) from by rw [← h1]]
  rfl

/-- Unfold one erroring chain step. -/
theorem chain_cons_err (cfg : Config) (w : World) (s : Stage) (ss : List Stage)
    (t : Trace) (e : BodyErr) (h : gateRes (stageRes cfg w s) = .error e) :
    chain cfg w (s :: ss) t = (.error e, (runStep cfg w s t).2) := by
  have h1 : (runStep cfg w s t).1 = Except.error e := h
  show andThen (runStep cfg w s t) (chain cfg w ss) = _
  rw [show runStep cfg w s t = (Except.error e, (runStep cfg w s t).2) from by rw [← h1]]
  rfl

/-- The stages a chain adds to the trace form a prefix of its stage list,
and a nonempty list always contributes its first stage. -/
theorem chain_take (cfg : Config) (w : World) :
    ∀ (ss : List Stage) (t : Trace), ∃ k, k ≤ ss.length ∧ (ss ≠ [] → 1 ≤ k) ∧
      (chain cfg w ss t).2.stages = t.stages ++ ss.take k := by
  intro ss
  induction ss with
  | nil =>
      intro t
      exact ⟨0, Nat.le_refl 0, fun h => absurd rfl h, by simp [chain, Trace.showSummary]⟩
  | cons s ss ih =>
      intro t
      rcases hres : stageRes cfg w s with e | b
      · rw [chain_cons_err cfg w s ss t _ (by rw [hres]; rfl)]
        exact ⟨1, by simp, fun _ => Nat.le_refl 1, by simp [runStep_stages]⟩
      · cases b
        · rw [chain_cons_err cfg w s ss t _ (by rw [hres]; rfl)]
          exact ⟨1, by simp, fun _ => Nat.le_refl 1, by simp [runStep_stages]⟩
        · rw [chain_cons_ok cfg w s ss t (by rw [hres]; rfl)]
          obtain ⟨k, hk, _, hst⟩ := ih (runStep cfg w s t).2
          refine ⟨k + 1, by simpa using hk, fun _ => Nat.le_add_left 1 k, ?_⟩
          rw [hst, runStep_stages]
          simp

/-- A chain that ends in success ran every stage of its list and printed
the summary. -/
theorem chain_ok (cfg : Config) (w : World) :
    ∀ (ss : List Stage) (t : Trace), (chain cfg w ss t).1 = .ok () →
      (chain cfg w ss t).2.stages = t.stages ++ ss ∧
      (chain cfg w ss t).2.summaryShown = true := by
  intro ss
  induction ss with
  | nil => intro t _; simp [chain, Trace.showSummary]
  | cons s ss ih =>
      intro t hok
      rcases hres : stageRes cfg w s with e | b
      · rw [chain_cons_err cfg w s ss t _ (by rw [hres]; rfl)] at hok ⊢
        exact absurd hok (by simp)
      · cases b
        · rw [chain_cons_err cfg w s ss t _ (by rw [hres]; rfl)] at hok ⊢
          exact absurd hok (by simp)
        · rw [chain_cons_ok cfg w s ss t (by rw [hres]; rfl)] at hok ⊢
          obtain ⟨hst, hsh⟩ := ih _ hok
          refine ⟨?_, hsh⟩
          rw [hst, runStep_stages]
          simp

/-- A chain that does not end in success leaves the summary flag alone. -/
theorem chain_not_ok (cfg : Config) (w : World) :
    ∀ (ss : List Stage) (t : Trace), (chain cfg w ss t).1 ≠ .ok () →
      (chain cfg w ss t).2.summaryShown = t.summaryShown := by
  intro ss
  induction ss with
  | nil => intro t h; exact absurd rfl h
  | cons s ss ih =>
      intro t h
      rcases hres : stageRes cfg w s with e | b
      · rw [chain_cons_err cfg w s ss t _ (by rw [hres]; rfl)]
        exact runStep_shown cfg w s t
      · cases b
        · rw [chain_cons_err cfg w s ss t _ (by rw [hres]; rfl)]
          exact runStep_shown cfg w s t
        · rw [chain_cons_ok cfg w s ss t (by rw [hres]; rfl)] at h ⊢
          rw [ih _ h, runStep_shown]

/-- If every stage of the list succeeds, the chain succeeds. -/
theorem chain_all_ok (cfg : Config) (w : World) :
    ∀ (ss : List Stage) (t : Trace), (∀ s ∈ ss, stageRes cfg w s = .ok true) →
      (chain cfg w ss t).1 = .ok () := by
  intro ss
  induction ss with
  | nil => intro t _; rfl
  | cons s ss ih =>
      intro t hall
      have hs : stageRes cfg w s = .ok true := hall s (by simp)
      rw [chain_cons_ok cfg w s ss t (by rw [hs]; rfl)]
      exact ih _ (fun x hx => hall x (by simp [hx]))

/-- A chain result is success, a `sys.exit(1)`, or a propagated raise. -/
theorem chain_classify (cfg : Config) (w : World) :
    ∀ (ss : List Stage) (t : Trace),
      (chain cfg w ss t).1 = .ok () ∨
      (chain cfg w ss t).1 = .error (.sysExit 1) ∨
      ∃ e, (chain cfg w ss t).1 = .error (.raised e) := by
  intro ss
  induction ss with
  | nil => intro t; exact Or.inl rfl
  | cons s ss ih =>
      intro t
      rcases hres : stageRes cfg w s with e | b
      · rw [chain_cons_err cfg w s ss t _ (by rw [hres]; rfl)]
        exact Or.inr (Or.inr ⟨e, rfl⟩)
      · cases b
        · rw [chain_cons_err cfg w s ss t _ (by rw [hres]; rfl)]
          exact Or.inr (Or.inl rfl)
        · rw [chain_cons_ok cfg w s ss t (by rw [hres]; rfl)]
          exact ih _

/-- If a stage whose method returns `False` is reached, the chain stops
right there with `sys.exit(1)`, that stage being the last one entered. -/
theorem chain_fail (cfg : Config) (w : World) (s : Stage)
    (hf : stageRes cfg w s = .ok false) :
    ∀ (ss : List Stage) (t : Trace), s ∈ (chain cfg w ss t).2.stages →
      s ∉ t.stages →
      (chain cfg w ss t).1 = .error (.sysExit 1) ∧
      ∃ l, (chain cfg w ss t).2.stages = l ++ [s] := by
  intro ss
  induction ss with
  | nil =>
      intro t hmem hnot
      exact absurd (by simpa [chain, Trace.showSummary] using hmem) hnot
  | cons s' ss ih =>
      intro t hmem hnot
      rcases hres : stageRes cfg w s' with e | b
      · rw [chain_cons_err cfg w s' ss t _ (by rw [hres]; rfl)] at hmem ⊢
        rw [runStep_stages] at hmem
        have hss : s = s' := by
          rcases List.mem_append.mp hmem with h | h
          · exact absurd h hnot
          · simpa using h
        rw [hss] at hf
        rw [hf] at hres
        exact absurd hres (by simp)
      · cases b
        · rw [chain_cons_err cfg w s' ss t _ (by rw [hres]; rfl)] at hmem ⊢
          rw [runStep_stages] at hmem ⊢
          have hss : s = s' := by
            rcases List.mem_append.mp hmem with h | h
            · exact absurd h hnot
            · simpa using h
          exact ⟨rfl, ⟨t.stages, by rw [hss]⟩⟩
        · rw [chain_cons_ok cfg w s' ss t (by rw [hres]; rfl)] at hmem ⊢
          have hne : s ≠ s' := by
            intro hss
            rw [hss] at hf
            rw [hf] at hres
            exact absurd hres (by simp)
          refine ih (runStep cfg w s' t).2 hmem ?_
          rw [runStep_stages]
          intro hin
          rcases List.mem_append.mp hin with h | h
          · exact hnot h
          · exact hne (by simpa using h)

/-! ## Bridging `main` to the chain -/

/-- Unfolded form of `main` for a valid flag combination. -/
theorem main_valid_eq (cfg : Config) (w : World)
    (h : ¬(cfg.infrastructure_only = true ∧ cfg.application_only = true)) :
    main cfg w =
      (match chain cfg w (stageList cfg) Trace.empty with
        | (.ok _, t) => (0, t)
        | (.error (.sysExit n), t) => (n, t)
        | (.error (.raised .interrupt), t) =>
            (1, t.addLog .warning "Deployment interrupted by user")
        | (.error (.raised (.exc m)), t) =>
            (1, t.addLog .error ("Unexpected error: " ++ m))) := by
  have hb : (cfg.infrastructure_only && cfg.application_only) = false := by
    rcases h1 : cfg.infrastructure_only <;> rcases h2 : cfg.application_only <;> simp_all
  rw [main, if_neg (by simp [hb]), deployerRun, runBody_eq_chain]
  rcases hc : chain cfg w (stageList cfg) Trace.empty with ⟨r, t⟩
  rcases r with (⟨n⟩ | e) | u
  · rfl
  · cases e <;> rfl
  · rfl

/-- For a valid flag combination the stages `main` records are the chain's. -/
theorem main_stages_valid (cfg : Config) (w : World)
    (h : ¬(cfg.infrastructure_only = true ∧ cfg.application_only = true)) :
    (main cfg w).2.stages = (chain cfg w (stageList cfg) Trace.empty).2.stages := by
  rw [main_valid_eq cfg w h]
  rcases hc : chain cfg w (stageList cfg) Trace.empty with ⟨r, t⟩
  rcases r with (⟨n⟩ | e) | u
  · rfl
  · cases e <;> rfl
  · rfl

/-- For a valid flag combination the summary flag `main` reports is the
chain's. -/
theorem main_shown_valid (cfg : Config) (w : World)
    (h : ¬(cfg.infrastructure_only = true ∧ cfg.application_only = true)) :
    (main cfg w).2.summaryShown =
      (chain cfg w (stageList cfg) Trace.empty).2.summaryShown := by
  rw [main_valid_eq cfg w h]
  rcases hc : chain cfg w (stageList cfg) Trace.empty with ⟨r, t⟩
  rcases r with (⟨n⟩ | e) | u
  · rfl
  · cases e <;> rfl
  · rfl

/-! ## Facts about the flag-selected stage list -/

/-- The stage list always starts with the prerequisite check. -/
theorem stageList_cons (cfg : Config) :
    stageList cfg = Stage.prereq ::
      ((if cfg.application_only then [] else [Stage.setup, Stage.tests, Stage.infra]) ++
        (if cfg.infrastructure_only then [] else
          [Stage.build] ++
            (if cfg.plan_only then []
              else [Stage.push, Stage.deploy, Stage.health]))) := rfl

/-- The stage list is a sublist of the fixed eight-stage order. -/
theorem stageList_sub (cfg : Config) : (stageList cfg).Sublist stageOrder8 := by
  rcases h1 : cfg.application_only <;> rcases h2 : cfg.infrastructure_only <;>
    rcases h3 : cfg.plan_only <;> simp [stageList, stageOrder8, h1, h2, h3]
  decide

/-- The stage list is strictly sorted by position in the fixed order. -/
theorem stageList_sorted (cfg : Config) :
    (stageList cfg).Pairwise (fun a b => stageIdx a < stageIdx b) := by
  rcases h1 : cfg.application_only <;> rcases h2 : cfg.infrastructure_only <;>
    rcases h3 : cfg.plan_only <;> simp [stageList, h1, h2, h3] <;> decide

/-- Every stage a run invokes belongs to the flag-selected stage list. -/
theorem invoked_subset (cfg : Config) (w : World) :
    ∀ s ∈ invoked cfg w, s ∈ stageList cfg := by
  by_cases hv : cfg.infrastructure_only = true ∧ cfg.application_only = true
  · intro s hs
    rw [invoked, main, if_pos (by simp [hv.1, hv.2])] at hs
    simp [Trace.empty] at hs
  · intro s hs
    rw [invoked, main_stages_valid cfg w hv] at hs
    obtain ⟨k, _, _, hst⟩ := chain_take cfg w (stageList cfg) Trace.empty
    rw [hst] at hs
    simp [Trace.empty] at hs
    exact List.take_subset k (stageList cfg) hs

/-! ## Worlds where every collaborator succeeds -/

/-- A world in which every command invocation returns status 0 and every
file write succeeds. -/
def goodWorld (w : World) : Prop :=
  (∀ c d, w.exec c d = .ok 0 "" "") ∧ (∀ f, w.write f = none)

/-- In a world where every collaborator succeeds, every stage method
returns `True`. -/
theorem stageRes_good (cfg : Config) (w : World) (hw : goodWorld w) (s : Stage) :
    stageRes cfg w s = .ok true := by
  obtain ⟨he, hwr⟩ := hw
  cases s
  case prereq =>
      rcases hreq : w.requirements_txt <;>
        simp [stageRes, stageOut, stageFn, check_prerequisites, whichMissing,
          run_command, sBind, sPure, logM, writeFile, create_basic_requirements,
          he, hwr, hreq]
  case setup =>
      rcases hv : w.venv <;>
        simp [stageRes, stageOut, stageFn, setup_python_environment,
          run_command, sBind, sPure, logM, he, hv]
  case tests =>
      rcases h1 : w.dir_tests <;> rcases h2 : w.dir_test <;> rcases h3 : w.test_files <;>
        simp [stageRes, stageOut, stageFn, run_tests,
          run_command, sBind, sPure, logM, he, h1, h2, h3]
  case infra =>
      rcases htf : w.terraform_dir <;> rcases hp : cfg.plan_only <;>
        simp [stageRes, stageOut, stageFn, deploy_infrastructure,
          create_demo_terraform, writeFile, run_command, sBind, sPure, logM,
          he, hwr, htf, hp]
  case build =>
      rcases hd : w.dockerfile <;>
        simp [stageRes, stageOut, stageFn, build_docker_image,
          create_demo_dockerfile, writeFile, run_command, sBind, sPure, logM,
          he, hwr, hd]
  case push =>
      simp [stageRes, stageOut, stageFn, push_to_registry,
        run_command, sBind, sPure, logM, he]
  case deploy =>
      simp [stageRes, stageOut, stageFn, deploy_application, sBind, sPure, logM]
  case health =>
      simp [stageRes, stageOut, stageFn, health_check, sBind, sPure, logM]
  case summary => rfl

/-- In a world where every collaborator succeeds, a valid run invokes
exactly the flag-selected stage list. -/
theorem invoked_good (cfg : Config) (w : World)
    (hv : ¬(cfg.infrastructure_only = true ∧ cfg.application_only = true))
    (hw : goodWorld w) : invoked cfg w = stageList cfg := by
  have hok : (chain cfg w (stageList cfg) Trace.empty).1 = .ok () :=
    chain_all_ok cfg w (stageList cfg) Trace.empty
      (fun s _ => stageRes_good cfg w hw s)
  have hst := (chain_ok cfg w (stageList cfg) Trace.empty hok).1
  rw [invoked, main_stages_valid cfg w hv, hst]
  simp [Trace.empty]

/-! ## Command-trace helpers for the infrastructure stage -/

/-- The `terraform init` invocation of `deploy_infrastructure`. -/
def initCmd (w : World) : Cmd := ⟨["terraform", "init"], some (tfDir w)⟩

/-- The `terraform plan` invocation of `deploy_infrastructure`. -/
def planCmd (w : World) : Cmd := ⟨["terraform", "plan"], some (tfDir w)⟩

/-- The `terraform apply -auto-approve` invocation of
`deploy_infrastructure`. -/
def applyCmd (w : World) : Cmd := ⟨["terraform", "apply", "-auto-approve"], some (tfDir w)⟩

/-- `run_command` records exactly its own command, whatever the outcome. -/
theorem run_command_cmds (w : World) (cmd : List String) (cwd : Option String)
    (cap : Bool) (t : Trace) :
    ((run_command w cmd cwd cap) t).2.cmds = t.cmds ++ [⟨cmd, cwd⟩] := by
  rcases he : w.exec cmd cwd with ⟨cc, o, er⟩ | pe
  · simp [run_command, he, Trace.addCmd]
  · rcases pe with _ | m <;> simp [run_command, he, Trace.addCmd, Trace.addLog]

/-- A stage computation only ever appends commands satisfying `P`. -/
def AddsOnly {α : Type} (P : Cmd → Prop) (m : StageM α) : Prop :=
  ∀ t c, c ∈ ((m t).2).cmds → c ∈ t.cmds ∨ P c

/-- Pure steps add no command. -/
theorem addsOnly_sPure {α : Type} (P : Cmd → Prop) (a : α) :
    AddsOnly P (sPure a) := fun _ _ h => Or.inl h

/-- Logging adds no command. -/
theorem addsOnly_logM (P : Cmd → Prop) (lv : Level) (m : String) :
    AddsOnly P (logM lv m) := fun t c h =>
  Or.inl (by simpa [logM, Trace.addLog] using h)

/-- File writes add no command. -/
theorem addsOnly_writeFile (P : Cmd → Prop) (w : World) (f : String) :
    AddsOnly P (writeFile w f) := by
  intro t c h
  left
  rcases hw : w.write f with _ | e <;> simpa [writeFile, hw] using h

/-- `run_command` adds only its own command. -/
theorem addsOnly_run_command (P : Cmd → Prop) (w : World) (cmd : List String)
    (cwd : Option String) (cap : Bool) (hP : P ⟨cmd, cwd⟩) :
    AddsOnly P (run_command w cmd cwd cap) := by
  intro t c h
  rw [run_command_cmds] at h
  rcases List.mem_append.mp h with h | h
  · exact Or.inl h
  · right
    have hc : c = ⟨cmd, cwd⟩ := by simpa using h
    rw [hc]
    exact hP

/-- Sequencing preserves the command bound. -/
theorem addsOnly_sBind {α β : Type} (P : Cmd → Prop) (m : StageM α)
    (f : α → StageM β) (hm : AddsOnly P m) (hf : ∀ a, AddsOnly P (f a)) :
    AddsOnly P (sBind m f) := by
  intro t c h
  rcases hmt : m t with ⟨r, t1⟩
  rw [sBind, hmt] at h
  cases r with
  | error e =>
      refine (hm t c ?_).imp id id
      rw [hmt]
      exact h
  | ok a =>
      rcases hf a t1 c h with h1 | h1
      · refine (hm t c ?_).imp id id
        rw [hmt]
        exact h1
      · exact Or.inr h1

/-- Branching preserves the command bound. -/
theorem addsOnly_iteP {α : Type} (P : Cmd → Prop) (c : Prop) [Decidable c]
    (m1 m2 : StageM α) (h1 : AddsOnly P m1) (h2 : AddsOnly P m2) :
    AddsOnly P (if c then m1 else m2) := by
  by_cases hc : c
  · simpa [hc] using h1
  · simpa [hc] using h2

/-- When the terraform directory exists and `terraform init` exits 0, the
infrastructure stage runs exactly init followed by plan or apply according
to the plan-only flag. -/
theorem infra_cmds_pos (cfg : Config) (w : World) (o e : String)
    (htf : w.terraform_dir = true)
    (hin : w.exec ["terraform", "init"] (some (tfDir w)) = .ok 0 o e) :
    (stageOut cfg w Stage.infra).2.cmds =
      [initCmd w, if cfg.plan_only then planCmd w else applyCmd w] := by
  rcases hp : cfg.plan_only
  · rcases ha : w.exec ["terraform", "apply", "-auto-approve"] (some (tfDir w)) with
      ⟨c2, o2, er2⟩ | pe
    · by_cases hc2 : c2 = 0 <;>
        simp [stageOut, stageFn, deploy_infrastructure, sBind, sPure, logM,
          run_command, htf, hp, hin, ha, hc2, Trace.empty, Trace.addCmd,
          Trace.addLog, initCmd, applyCmd, planCmd]
    · rcases pe with _ | m <;>
        simp [stageOut, stageFn, deploy_infrastructure, sBind, sPure, logM,
          run_command, htf, hp, hin, ha, Trace.empty, Trace.addCmd,
          Trace.addLog, initCmd, applyCmd, planCmd]
  · rcases ha : w.exec ["terraform", "plan"] (some (tfDir w)) with
      ⟨c2, o2, er2⟩ | pe
    · by_cases hc2 : c2 = 0 <;>
        simp [stageOut, stageFn, deploy_infrastructure, sBind, sPure, logM,
          run_command, htf, hp, hin, ha, hc2, Trace.empty, Trace.addCmd,
          Trace.addLog, initCmd, applyCmd, planCmd]
    · rcases pe with _ | m <;>
        simp [stageOut, stageFn, deploy_infrastructure, sBind, sPure, logM,
          run_command, htf, hp, hin, ha, Trace.empty, Trace.addCmd,
          Trace.addLog, initCmd, applyCmd, planCmd]

/-! ## Claim theorems -/

/-- C1 (counterexample): with both `--infrastructure-only` and
`--application-only` set, the process exit status is 2, not 1 as the claim
states, because `argparse.ArgumentParser.error` terminates with status 2. -/
theorem C1_counterexample :
    cfgBoth.infrastructure_only = true ∧ cfgBoth.application_only = true ∧
    (main cfgBoth wGood).1 ≠ 1 ∧ (main cfgBoth wGood).1 = 2 :=
  ⟨rfl, rfl, by decide, rfl⟩

/-- C1 (amended): for every flag combination in which infrastructure-only
and application-only are both true, the run aborts with a configuration
error before any stage executes and before any collaborator is invoked,
and the process returns exit status 2 (the argparse error convention). -/
theorem C1_flags_conflict (cfg : Config) (w : World)
    (h1 : cfg.infrastructure_only = true) (h2 : cfg.application_only = true) :
    (main cfg w).1 = 2 ∧ invoked cfg w = [] ∧ (main cfg w).2.cmds = [] := by
  have hm : main cfg w = (2, Trace.empty) := by
    rw [main, if_pos (by simp [h1, h2])]
  rw [invoked, hm]
  exact ⟨rfl, rfl, rfl⟩

/-- C1 (witness): the amended abort behaviour at a concrete input. -/
theorem C1_witness :
    (main cfgBoth wGood).1 = 2 ∧ invoked cfgBoth wGood = [] ∧
    (main cfgBoth wGood).2.cmds = [] :=
  C1_flags_conflict cfgBoth wGood rfl rfl

/-- C2: for every valid configuration, the invoked stage sequence
(summary included) is a subsequence of the fixed order, and the
prerequisite check always runs first. -/
theorem C2_stage_order (cfg : Config) (w : World)
    (h : ¬(cfg.infrastructure_only = true ∧ cfg.application_only = true)) :
    (invokedAll cfg w).Sublist fullOrder ∧
    (invokedAll cfg w).head? = some Stage.prereq := by
  by_cases hok : (chain cfg w (stageList cfg) Trace.empty).1 = .ok ()
  · obtain ⟨hst, hsh⟩ := chain_ok cfg w _ _ hok
    have h1 : invoked cfg w = stageList cfg := by
      rw [invoked, main_stages_valid cfg w h, hst]
      simp [Trace.empty]
    have h2 : (main cfg w).2.summaryShown = true := by
      rw [main_shown_valid cfg w h, hsh]
    rw [invokedAll, h1, h2]
    constructor
    · simpa [fullOrder] using
        (stageList_sub cfg).append (List.Sublist.refl [Stage.summary])
    · rw [stageList_cons]
      simp
  · have hsh : (main cfg w).2.summaryShown = false := by
      rw [main_shown_valid cfg w h, chain_not_ok cfg w _ _ hok]
      rfl
    obtain ⟨k, hk, hk1, hst⟩ := chain_take cfg w (stageList cfg) Trace.empty
    have h1 : invoked cfg w = (stageList cfg).take k := by
      rw [invoked, main_stages_valid cfg w h, hst]
      simp [Trace.empty]
    rw [invokedAll, hsh, h1]
    constructor
    · simp only [if_neg, Bool.false_eq_true, List.append_nil, ite_false]
      exact ((List.take_sublist k _).trans (stageList_sub cfg)).trans
        (List.sublist_append_left stageOrder8 [Stage.summary])
    · have hk' : 1 ≤ k := hk1 (by rw [stageList_cons]; simp)
      obtain ⟨k2, rfl⟩ : ∃ k2, k = k2 + 1 := ⟨k - 1, by omega⟩
      rw [stageList_cons]
      simp

/-- C2 (witness): the order property at a concrete valid input. -/
theorem C2_witness :
    (invokedAll cfgDefault wGood).Sublist fullOrder ∧
    (invokedAll cfgDefault wGood).head? = some Stage.prereq :=
  C2_stage_order cfgDefault wGood (by decide)

/-- C3: if a stage whose method reports failure is invoked, then no stage
later in the fixed order is invoked, the summary is not printed, and the
process exit status is non-zero. -/
theorem C3_fail_short_circuit (cfg : Config) (w : World) (s : Stage)
    (hf : stageRes cfg w s = .ok false) (hs : s ∈ invoked cfg w) :
    (∀ s2 ∈ invoked cfg w, stageIdx s2 ≤ stageIdx s) ∧
    (main cfg w).2.summaryShown = false ∧ (main cfg w).1 ≠ 0 := by
  by_cases hv : cfg.infrastructure_only = true ∧ cfg.application_only = true
  · rw [invoked, main, if_pos (by simp [hv.1, hv.2])] at hs
    simp [Trace.empty] at hs
  · have hs' : s ∈ (chain cfg w (stageList cfg) Trace.empty).2.stages := by
      rw [invoked, main_stages_valid cfg w hv] at hs
      exact hs
    obtain ⟨hres, l, hl⟩ :=
      chain_fail cfg w s hf (stageList cfg) Trace.empty hs' (by simp [Trace.empty])
    obtain ⟨k, hk, hk1, hst⟩ := chain_take cfg w (stageList cfg) Trace.empty
    have hpw : ((chain cfg w (stageList cfg) Trace.empty).2.stages).Pairwise
        (fun a b => stageIdx a < stageIdx b) := by
      rw [hst]
      simp only [Trace.empty, List.nil_append]
      exact List.Pairwise.sublist (List.take_sublist k _) (stageList_sorted cfg)
    have hinv : invoked cfg w = (chain cfg w (stageList cfg) Trace.empty).2.stages := by
      rw [invoked, main_stages_valid cfg w hv]
    refine ⟨?_, ?_, ?_⟩
    · intro s2 hs2
      rw [hinv, hl] at hs2
      rw [hl] at hpw
      rcases List.mem_append.mp hs2 with h2 | h2
      · have := (List.pairwise_append.mp hpw).2.2 s2 h2 s (by simp)
        omega
      · have : s2 = s := by simpa using h2
        rw [this]
    · rw [main_shown_valid cfg w hv, chain_not_ok cfg w _ _ (by rw [hres]; simp)]
      rfl
    · rw [main_valid_eq cfg w hv]
      rcases hc : chain cfg w (stageList cfg) Trace.empty with ⟨r, t⟩
      rw [hc] at hres
      simp only at hres
      rw [hres]
      simp

/-- C3 (witness): a failing test stage at a concrete input halts the run
before the summary with a non-zero exit. -/
theorem C3_witness :
    (main cfgDefault wFailTests).2.summaryShown = false ∧
    (main cfgDefault wFailTests).1 ≠ 0 :=
  (C3_fail_short_circuit cfgDefault wFailTests Stage.tests (by decide)
    (by decide)).2

/-- C4: with plan-only set, the registry-push, application-deployment and
health-check stages are never invoked. -/
theorem C4_plan_only_skips (cfg : Config) (w : World) (h : cfg.plan_only = true) :
    Stage.push ∉ invoked cfg w ∧ Stage.deploy ∉ invoked cfg w ∧
    Stage.health ∉ invoked cfg w := by
  refine ⟨fun hm => ?_, fun hm => ?_, fun hm => ?_⟩
  all_goals (
    have hx := invoked_subset cfg w _ hm;
    rcases h1 : cfg.application_only <;> rcases h2 : cfg.infrastructure_only <;>
      simp [stageList, h, h1, h2] at hx)

/-- C4 (witness): the plan-only skip at a concrete input. -/
theorem C4_witness :
    Stage.push ∉ invoked cfgPlan wGood ∧ Stage.deploy ∉ invoked cfgPlan wGood ∧
    Stage.health ∉ invoked cfgPlan wGood :=
  C4_plan_only_skips cfgPlan wGood rfl

/-- C5 (counterexample): with infrastructure-only set and a valid flag
combination, the environment-setup stage is not invoked when the
prerequisite check fails, contradicting the claim that it always runs. -/
theorem C5_counterexample :
    (¬(cfgInfra.infrastructure_only = true ∧ cfgInfra.application_only = true)) ∧
    cfgInfra.infrastructure_only = true ∧
    Stage.setup ∉ invoked cfgInfra wBadDocker := by
  refine ⟨by decide, rfl, ?_⟩
  decide

/-- C5 (amended): for every valid configuration, infrastructure-only
implies the build/push/deploy/health stages never run, and — provided
every collaborator invocation succeeds — the setup, test and
infrastructure stages all run; application-only is the mirror image. -/
theorem C5_mode_gating (cfg : Config) (w : World)
    (hv : ¬(cfg.infrastructure_only = true ∧ cfg.application_only = true)) :
    (cfg.infrastructure_only = true →
      Stage.build ∉ invoked cfg w ∧ Stage.push ∉ invoked cfg w ∧
      Stage.deploy ∉ invoked cfg w ∧ Stage.health ∉ invoked cfg w) ∧
    (cfg.infrastructure_only = true → goodWorld w →
      Stage.setup ∈ invoked cfg w ∧ Stage.tests ∈ invoked cfg w ∧
      Stage.infra ∈ invoked cfg w) ∧
    (cfg.application_only = true →
      Stage.setup ∉ invoked cfg w ∧ Stage.tests ∉ invoked cfg w ∧
      Stage.infra ∉ invoked cfg w) ∧
    (cfg.application_only = true → goodWorld w →
      Stage.build ∈ invoked cfg w ∧
      (cfg.plan_only = false →
        Stage.push ∈ invoked cfg w ∧ Stage.deploy ∈ invoked cfg w ∧
        Stage.health ∈ invoked cfg w)) := by
  refine ⟨?_, ?_, ?_, ?_⟩
  · intro hi
    have ha : cfg.application_only = false := by
      rcases h2 : cfg.application_only
      · rfl
      · exact absurd ⟨hi, h2⟩ hv
    refine ⟨fun hm => ?_, fun hm => ?_, fun hm => ?_, fun hm => ?_⟩
    all_goals (
      have hx := invoked_subset cfg w _ hm;
      simp [stageList, hi, ha] at hx)
  · intro hi hw
    have ha : cfg.application_only = false := by
      rcases h2 : cfg.application_only
      · rfl
      · exact absurd ⟨hi, h2⟩ hv
    rw [invoked_good cfg w hv hw]
    simp [stageList, hi, ha]
  · intro ha
    refine ⟨fun hm => ?_, fun hm => ?_, fun hm => ?_⟩
    all_goals (
      have hx := invoked_subset cfg w _ hm;
      rcases h2 : cfg.infrastructure_only <;>
        rcases h3 : cfg.plan_only <;> simp [stageList, ha, h2, h3] at hx)
  · intro ha hw
    have hi : cfg.infrastructure_only = false := by
      rcases h2 : cfg.infrastructure_only
      · rfl
      · exact absurd ⟨h2, ha⟩ hv
    rw [invoked_good cfg w hv hw]
    constructor
    · simp [stageList, hi]
    · intro hp
      simp [stageList, hi, hp]

/-- C5 (witness): the amended gating at concrete inputs. -/
theorem C5_witness :
    Stage.setup ∈ invoked cfgInfra wGood ∧ Stage.build ∉ invoked cfgInfra wGood := by
  have H := C5_mode_gating cfgInfra wGood (by decide)
  exact ⟨(H.2.1 rfl ⟨fun _ _ => rfl, fun _ => rfl⟩).1, (H.1 rfl).1⟩

/-- C6: when no tests are discoverable, the test stage logs a warning,
issues no command, returns success, and the orchestrator gate lets the run
continue to the next stage. -/
theorem C6_tests_skip (cfg : Config) (w : World) (h1 : w.dir_tests = false)
    (h2 : w.dir_test = false) (h3 : w.test_files = false) :
    stageRes cfg w Stage.tests = .ok true ∧
    (Level.warning, "No tests found - skipping test execution") ∈
      (stageOut cfg w Stage.tests).2.logs ∧
    (stageOut cfg w Stage.tests).2.cmds = [] ∧
    ∀ t, (runStep cfg w Stage.tests t).1 = .ok () := by
  have hout : stageOut cfg w Stage.tests =
      (.ok true, ⟨[], [],
        [(Level.info, "Running tests..."),
          (Level.warning, "No tests found - skipping test execution")], false⟩) := by
    simp [stageOut, stageFn, run_tests, sBind, sPure, logM, h1, h2, h3,
      Trace.empty, Trace.addLog]
  refine ⟨?_, ?_, ?_, fun t => ?_⟩
  · show (stageOut cfg w Stage.tests).1 = .ok true
    rw [hout]
  · rw [hout]
    simp
  · rw [hout]
  · rw [runStep_fst]
    show gateRes (stageOut cfg w Stage.tests).1 = .ok ()
    rw [hout]
    rfl

/-- C6 (witness): the skip behaviour at a concrete input with no tests. -/
theorem C6_witness :
    stageRes cfgDefault wGood Stage.tests = .ok true ∧
    (Level.warning, "No tests found - skipping test execution") ∈
      (stageOut cfgDefault wGood Stage.tests).2.logs ∧
    (stageOut cfgDefault wGood Stage.tests).2.cmds = [] := by
  have H := C6_tests_skip cfgDefault wGood rfl rfl rfl
  exact ⟨H.1, H.2.1, H.2.2.1⟩

/-- C7: the infrastructure stage never issues the apply command when
plan-only is set and never issues the plan command otherwise; and when the
stage reaches terraform after a successful init, it issues exactly the
sub-command selected by the plan-only flag. -/
theorem C7_infra_submode (cfg : Config) (w : World) :
    (cfg.plan_only = true →
      applyCmd w ∉ (stageOut cfg w Stage.infra).2.cmds) ∧
    (cfg.plan_only = false →
      planCmd w ∉ (stageOut cfg w Stage.infra).2.cmds) ∧
    (∀ o e, w.terraform_dir = true →
      w.exec ["terraform", "init"] (some (tfDir w)) = .ok 0 o e →
      (cfg.plan_only = true →
        planCmd w ∈ (stageOut cfg w Stage.infra).2.cmds) ∧
      (cfg.plan_only = false →
        applyCmd w ∈ (stageOut cfg w Stage.infra).2.cmds)) := by
  refine ⟨fun hp hmem => ?_, fun hp hmem => ?_,
    fun o e htf hin => ⟨fun hp => ?_, fun hp => ?_⟩⟩
  · have hA : AddsOnly (fun c => c = initCmd w ∨ c = planCmd w)
        (deploy_infrastructure cfg w) := by
      unfold deploy_infrastructure create_demo_terraform
      rw [hp]
      simp only [if_true]
      repeat'
        first
          | exact addsOnly_logM _ _ _
          | exact addsOnly_writeFile _ _ _
          | exact addsOnly_sPure _ _
          | exact addsOnly_run_command _ _ _ _ _ (Or.inl rfl)
          | exact addsOnly_run_command _ _ _ _ _ (Or.inr rfl)
          | apply addsOnly_sBind
          | apply addsOnly_iteP
          | intro a
    rcases hA Trace.empty (applyCmd w) hmem with h | h
    · simp [Trace.empty] at h
    · rcases h with h | h <;>
        simp [initCmd, planCmd, applyCmd, Cmd.mk.injEq] at h
  · have hA : AddsOnly (fun c => c = initCmd w ∨ c = applyCmd w)
        (deploy_infrastructure cfg w) := by
      unfold deploy_infrastructure create_demo_terraform
      rw [hp]
      simp only [Bool.false_eq_true, if_false]
      repeat'
        first
          | exact addsOnly_logM _ _ _
          | exact addsOnly_writeFile _ _ _
          | exact addsOnly_sPure _ _
          | exact addsOnly_run_command _ _ _ _ _ (Or.inl rfl)
          | exact addsOnly_run_command _ _ _ _ _ (Or.inr rfl)
          | apply addsOnly_sBind
          | apply addsOnly_iteP
          | intro a
    rcases hA Trace.empty (planCmd w) hmem with h | h
    · simp [Trace.empty] at h
    · rcases h with h | h <;>
        simp [initCmd, planCmd, applyCmd, Cmd.mk.injEq] at h
  · rw [infra_cmds_pos cfg w o e htf hin, hp]
    simp
  · rw [infra_cmds_pos cfg w o e htf hin, hp]
    simp

/-- C7 (witness): the plan sub-mode at a concrete plan-only input and the
apply sub-mode at a concrete default input. -/
theorem C7_witness :
    planCmd wGood ∈ (stageOut cfgPlan wGood Stage.infra).2.cmds ∧
    applyCmd wGood ∉ (stageOut cfgPlan wGood Stage.infra).2.cmds := by
  have H := C7_infra_submode cfgPlan wGood
  exact ⟨(H.2.2 "" "" rfl rfl).1 rfl, H.1 rfl⟩

/-- C8: a `KeyboardInterrupt` or an unexpected exception escaping the
stage sequence is caught at `run`'s boundary, logged (the interruption
with a distinct warning), and mapped to exit status 1; for a valid flag
combination no other status than 0 or 1 is possible, so nothing propagates
past the orchestrator. -/
theorem C8_top_boundary (cfg : Config) (w : World)
    (hv : ¬(cfg.infrastructure_only = true ∧ cfg.application_only = true)) :
    ((runBody cfg w Trace.empty).1 = .error (.raised .interrupt) →
      (main cfg w).1 = 1 ∧
      (Level.warning, "Deployment interrupted by user") ∈ (main cfg w).2.logs) ∧
    (∀ m, (runBody cfg w Trace.empty).1 = .error (.raised (.exc m)) →
      (main cfg w).1 = 1 ∧
      (Level.error, "Unexpected error: " ++ m) ∈ (main cfg w).2.logs) ∧
    ((main cfg w).1 = 0 ∨ (main cfg w).1 = 1) := by
  have hm := main_valid_eq cfg w hv
  rw [runBody_eq_chain]
  rcases hc : chain cfg w (stageList cfg) Trace.empty with ⟨r, t⟩
  rw [hc] at hm
  refine ⟨fun hint => ?_, fun m hexc => ?_, ?_⟩
  · simp only at hint
    subst hint
    rw [hm]
    simp [Trace.addLog]
  · simp only at hexc
    subst hexc
    rw [hm]
    simp [Trace.addLog]
  · rcases chain_classify cfg w (stageList cfg) Trace.empty with h | h | ⟨e, h⟩ <;>
      rw [hc] at h <;> simp only at h <;> subst h <;> rw [hm]
    · simp
    · simp
    · rcases e with _ | m <;> simp

/-- C8 (witness): an interrupted run at a concrete input exits 1 with the
distinct warning. -/
theorem C8_witness :
    (main cfgDefault wInterrupted).1 = 1 ∧
    (Level.warning, "Deployment interrupted by user") ∈
      (main cfgDefault wInterrupted).2.logs :=
  (C8_top_boundary cfgDefault wInterrupted (by decide)).1 (by decide)

/-- C9: when the underlying launch raises an ordinary exception, the
command wrapper catches it, logs an error, and returns the triple
`(1, "", message)` instead of raising. -/
theorem C9_run_command_total (w : World) (cmd : List String)
    (cwd : Option String) (cap : Bool) (m : String) (t : Trace)
    (h : w.exec cmd cwd = .raise (.exc m)) :
    run_command w cmd cwd cap t =
      (.ok (1, "", m),
        (t.addCmd ⟨cmd, cwd⟩).addLog .error
          ("Failed to run command " ++ String.intercalate " " cmd ++ ": " ++ m)) := by
  simp [run_command, h]

/-- C9 (witness): the exception-to-result conversion at a concrete input. -/
theorem C9_witness :
    run_command wExc ["docker", "info"] none true Trace.empty =
      (.ok (1, "", "boom"),
        (Trace.empty.addCmd ⟨["docker", "info"], none⟩).addLog .error
          ("Failed to run command " ++
            String.intercalate " " ["docker", "info"] ++ ": " ++ "boom")) :=
  C9_run_command_total wExc ["docker", "info"] none true "boom" Trace.empty rfl

/-- C10: the application-deployment and health-check stages issue no
command and return success unconditionally, so the orchestrator gate never
aborts the run at either stage. -/
theorem C10_deploy_health_trivial (cfg : Config) (w : World) (t : Trace) :
    stageRes cfg w Stage.deploy = .ok true ∧
    (stageOut cfg w Stage.deploy).2.cmds = [] ∧
    stageRes cfg w Stage.health = .ok true ∧
    (stageOut cfg w Stage.health).2.cmds = [] ∧
    (runStep cfg w Stage.deploy t).1 = .ok () ∧
    (runStep cfg w Stage.health t).1 = .ok () :=
  ⟨rfl, rfl, rfl, rfl, rfl, rfl⟩

end SuperDeploy
